import Mathlib

/-!
Shallow embedding of the `rotatefile` Go package (file `go.go`).

The package implements a size-based rotating log file: a `RotateFile`
value owns one active file at `Name`, counts bytes written since the
file was (re)opened in `CapUsing`, and once a write does not fit inside
`CapLimit` it closes the file, shifts the numbered backups
`Name.1 .. Name.Backup`, renames the active file to `Name.1` and reopens
a fresh active file, writing the tail of the input there.

Modelling choices:
  * the file system is an association list from names to file data
    (content bytes and a modification time); file handles are identified
    with the name they were opened at, which is faithful for every code
    path of the package (the code never writes through a handle after
    renaming it away: it reopens first);
  * machine integers (`int` in Go) are modelled as `Int`; byte counts
    are `Nat`; overflow of 64-bit ints is irrelevant at the sizes the
    claims are about;
  * fallible OS calls (`File.Write`, `File.Close`, `OpenFile` inside a
    write call, `Stat`) take their outcome from an explicit environment
    `Env`/`NewEnv`; `os.Remove` and `os.Rename` are modelled as pure
    file-system updates that always succeed (no claim is about their
    failure paths);
  * Go's slice expression `b[:capSpace]` panics when `capSpace < 0`;
    this is the `WriteOut.panic` outcome;
  * `doa.Try2` (dependency `github.com/mohanson/doa`) panics when its
    error argument is non-nil and otherwise passes the value through,
    per the comment in the source: "Panic directly to avoid errors
    being eaten.".
-/

namespace rotatefile

/-- An I/O error message, as carried by a Go `error` value. -/
abbrev Err := String

/-- The data the model keeps for one on-disk file: its content (a byte
list) and its modification time. -/
structure FData where
  content : List Nat
  mtime : Nat
deriving DecidableEq, Repr

/-- The file-system namespace around the log file: an association list
from file names to file data (first binding wins). -/
abbrev FS := List (String × FData)

/-- Look a name up in the file system. -/
def fsFind : FS → String → Option FData
  | [], _ => none
  | (k, d) :: t, name => if k = name then some d else fsFind t name

/-- `os.Remove`: drop every binding of `name`. -/
def fsRemove : FS → String → FS
  | [], _ => []
  | (k, d) :: t, name => if k = name then fsRemove t name else (k, d) :: fsRemove t name

/-- Bind `name` to `d`, dropping any previous binding. -/
def fsSet (fs : FS) (name : String) (d : FData) : FS :=
  (name, d) :: fsRemove fs name

/-- `os.Rename src dst`: move the data of `src` to `dst`, replacing any
file at `dst`. (A rename of a missing source, which would error in Go,
leaves the model unchanged; no code path of the package reaches it.) -/
def fsRename (fs : FS) (src dst : String) : FS :=
  match fsFind fs src with
  | none => fs
  | some d => fsSet (fsRemove fs src) dst d

/-- Append bytes through an open handle at `name`; the file's
modification time becomes `now`. -/
def fsAppend (fs : FS) (name : String) (bs : List Nat) (now : Nat) : FS :=
  match fsFind fs name with
  | none => fsSet fs name ⟨bs, now⟩
  | some d => fsSet fs name ⟨d.content ++ bs, now⟩

/-- `isFileExist`: test whether a path exists (`os.Stat` succeeds). -/
def isFileExist (fs : FS) (name : String) : Bool :=
  (fsFind fs name).isSome

/-- `OpenWronlyTrunca`: open with `O_WRONLY|O_TRUNC` (truncate existing
content, do not create). Unused by the write path; kept for
completeness of the embedding. -/
def OpenWronlyTrunca (fs : FS) (name : String) (now : Nat) : FS :=
  match fsFind fs name with
  | some _ => fsSet fs name ⟨[], now⟩
  | none => fs

/-- `OpenWronlyCreateAppend`: open with `O_WRONLY|O_CREATE|O_APPEND`;
creates an empty file when absent and never truncates. -/
def OpenWronlyCreateAppend (fs : FS) (name : String) (now : Nat) : FS :=
  match fsFind fs name with
  | some _ => fs
  | none => fsSet fs name ⟨[], now⟩

/-- The file-system operations a call performs, in order. -/
inductive Op where
  | fileWrite (name : String) (bytes : List Nat)
  | fileClose (name : String)
  | fsRemove (name : String)
  | fsRename (src dst : String)
  | fileOpen (name : String)
deriving DecidableEq, Repr

/-- Is the operation a rename or a remove? -/
def Op.isMove : Op → Bool
  | .fsRename _ _ => true
  | .fsRemove _ => true
  | _ => false

/-- Is the operation a plain write through a handle? -/
def Op.isWriteOp : Op → Bool
  | .fileWrite _ _ => true
  | _ => false

/-- Is the operation a (re)open of a file? -/
def Op.isOpenOp : Op → Bool
  | .fileOpen _ => true
  | _ => false

/-- The `RotateFile` struct of the source. The `File` handle is
represented by the name it is open at (`Name`), see the module
docstring. -/
structure RotateFile where
  Backup : Int
  CapLimit : Int
  CapUsing : Int
  Name : String
  UpdateAt : Nat
deriving DecidableEq, Repr

/-- Outcomes of the fallible OS calls inside one `write` call:
`fw0`/`fw1` give, for a requested byte count, how many bytes the first
(resp. tail) `File.Write` reports written and its error; `closeE` and
`openE` are the errors of `File.Close` and of the reopen. -/
structure Env where
  fw0 : Nat → Nat × Option Err
  closeE : Option Err
  openE : Option Err
  fw1 : Nat → Nat × Option Err

/-- The environment in which every OS call succeeds and every write is
complete. -/
def happyEnv : Env :=
  { fw0 := fun n => (n, none), closeE := none, openE := none, fw1 := fun n => (n, none) }

/-- The backup file name `fmt.Sprintf("%s.%d", name, i)`. -/
def bak (name : String) (i : Nat) : String :=
  name ++ "." ++ Nat.repr i

/-- The backup-shifting loop `for i := f.Backup - 1; i > 0; i--` of
`write`: iteration `m` handles index `i = m`, renaming `name.i` to
`name.(i+1)` (deleting a pre-existing `name.(i+1)` first) when `name.i`
exists. Returns the new file system and the operations performed. -/
def shiftLoop (name : String) : Nat → FS → FS × List Op
  | 0, fs => (fs, [])
  | Nat.succ j, fs =>
    let sfn := bak name (j + 1)
    let dfn := bak name (j + 2)
    let step : FS × List Op :=
      if isFileExist fs sfn then
        let rmv : FS × List Op :=
          if isFileExist fs dfn then (fsRemove fs dfn, [Op.fsRemove dfn]) else (fs, [])
        (fsRename rmv.1 sfn dfn, rmv.2 ++ [Op.fsRename sfn dfn])
      else (fs, [])
    let rest := shiftLoop name j step.1
    (rest.1, step.2 ++ rest.2)

/-- The whole backup-rotation block of `write`: when `Backup > 0`, run
the shifting loop from `Backup - 1` down to `1`, then delete any
existing `name.1` and rename the just-closed active file to `name.1`.
When `Backup <= 0` nothing happens. -/
def rotate (name : String) (backup : Int) (fs : FS) : FS × List Op :=
  if 0 < backup then
    let shifted := shiftLoop name (backup - 1).toNat fs
    let dfn := bak name 1
    let rmv : FS × List Op :=
      if isFileExist shifted.1 dfn then (fsRemove shifted.1 dfn, [Op.fsRemove dfn])
      else (shifted.1, [])
    (fsRename rmv.1 name dfn, shifted.2 ++ rmv.2 ++ [Op.fsRename name dfn])
  else (fs, [])

/-- Result of the private `write` method: either Go's `(n, err)` return
value together with the new sink state, file system and operation
trace, or a runtime panic from the slice expression `b[:capSpace]`
evaluated with a negative bound (state unchanged, nothing written). -/
inductive WriteOut where
  | ok (n : Nat) (e : Option Err) (f : RotateFile) (fs : FS) (tr : List Op)
  | panic
deriving DecidableEq, Repr

/-- The private `write` method of the source, line by line:
compute `capSpace = CapLimit - CapUsing`; if the input fits, write it
whole; otherwise write `b[:capSpace]` (a slice that panics when
`capSpace < 0`), close, rotate backups, reopen, and write the tail
`b[capSpace:]` to the fresh file, resetting `CapUsing` to the tail
bytes written. Any error aborts the remaining steps and is returned. -/
def write (f : RotateFile) (fs : FS) (b : List Nat) (now : Nat) (env : Env) : WriteOut :=
  let capSpace : Int := f.CapLimit - f.CapUsing
  if (b.length : Int) ≤ capSpace then
    let w := min (env.fw0 b.length).1 b.length
    WriteOut.ok w (env.fw0 b.length).2
      { f with CapUsing := f.CapUsing + (w : Int), UpdateAt := now }
      (fsAppend fs f.Name (List.take w b) now)
      [Op.fileWrite f.Name (List.take w b)]
  else if capSpace < 0 then
    WriteOut.panic
  else
    let k := capSpace.toNat
    let w0 := min (env.fw0 k).1 k
    let fs1 := fsAppend fs f.Name (List.take w0 (List.take k b)) now
    let f1 := { f with CapUsing := f.CapUsing + (w0 : Int), UpdateAt := now }
    let tr1 := [Op.fileWrite f.Name (List.take w0 (List.take k b))]
    match (env.fw0 k).2 with
    | some e => WriteOut.ok w0 (some e) f1 fs1 tr1
    | none =>
      match env.closeE with
      | some e => WriteOut.ok w0 (some e) f1 fs1 (tr1 ++ [Op.fileClose f.Name])
      | none =>
        let rot := rotate f.Name f.Backup fs1
        let tr2 := tr1 ++ [Op.fileClose f.Name] ++ rot.2
        match env.openE with
        | some e => WriteOut.ok w0 (some e) f1 rot.1 tr2
        | none =>
          let fs3 := OpenWronlyCreateAppend rot.1 f.Name now
          let tl := List.drop k b
          let w1 := min (env.fw1 tl.length).1 tl.length
          WriteOut.ok (w0 + w1) (env.fw1 tl.length).2
            { f1 with CapUsing := (w1 : Int), UpdateAt := now }
            (fsAppend fs3 f.Name (List.take w1 tl) now)
            (tr2 ++ [Op.fileOpen f.Name, Op.fileWrite f.Name (List.take w1 tl)])

/-- Result of the public `Write` method: Go's `(n, nil)` on success, or
a process abort. `doa.Try2` panics on any error of the private `write`,
so no constructor carries an error value; `panicked` keeps the file
system as it was when the panic fired and the operations performed up
to it. -/
inductive PublicOut where
  | ok (n : Nat) (f : RotateFile) (fs : FS) (tr : List Op)
  | panicked (fs : FS) (tr : List Op)
deriving DecidableEq, Repr

/-- The public `Write` method: `n = doa.Try2(f.write(b)).(int)`, which
panics whenever `write` returned a non-nil error (and when `write`
itself panics), and otherwise returns `(n, nil)`. -/
def Write (f : RotateFile) (fs : FS) (b : List Nat) (now : Nat) (env : Env) : PublicOut :=
  match write f fs b now env with
  | WriteOut.ok n none f' fs' tr => PublicOut.ok n f' fs' tr
  | WriteOut.ok _ (some _) _ fs' tr => PublicOut.panicked fs' tr
  | WriteOut.panic => PublicOut.panicked fs []

/-- Outcomes of the fallible OS calls inside `New`: the error of the
initial `OpenFile` and the error of the following `Stat`. -/
structure NewEnv where
  openE : Option Err
  statE : Option Err

/-- The constructor `New(name, backup, size)`: build the record, open
`name` with `O_WRONLY|O_CREATE|O_APPEND` (on failure return the record
together with the error), then `Stat` the open file (on failure return
no record and the error), and recover `CapUsing` from the file size and
`UpdateAt` from its modification time. -/
def New (fs : FS) (name : String) (backup size_ : Int) (now : Nat) (env : NewEnv) :
    Option RotateFile × Option Err × FS :=
  match env.openE with
  | some e => (some ⟨backup, size_, 0, name, 0⟩, some e, fs)
  | none =>
    let fs1 := OpenWronlyCreateAppend fs name now
    match env.statE with
    | some e => (none, some e, fs1)
    | none =>
      match fsFind fs1 name with
      | some d => (some ⟨backup, size_, (d.content.length : Int), name, d.mtime⟩, none, fs1)
      | none => (none, some "stat", fs1)

/-- Result of a sequence of `Write` calls: the final state, or the
state at which the sequence stopped (a panic, or an error return). -/
inductive RunOut where
  | ok (f : RotateFile) (fs : FS) (tr : List Op)
  | stopped (fs : FS) (tr : List Op)
deriving DecidableEq, Repr

/-- Run a list of writes in order through `write` under `happyEnv`
(every OS call succeeds), stopping at the first panic or error and
concatenating the operation traces. -/
def runWrites (f : RotateFile) (fs : FS) (bs : List (List Nat)) (now : Nat) : RunOut :=
  match bs with
  | [] => RunOut.ok f fs []
  | b :: rest =>
    match write f fs b now happyEnv with
    | WriteOut.ok _ none f' fs' tr =>
      match runWrites f' fs' rest now with
      | RunOut.ok f2 fs2 tr2 => RunOut.ok f2 fs2 (tr ++ tr2)
      | RunOut.stopped fs2 tr2 => RunOut.stopped fs2 (tr ++ tr2)
    | WriteOut.ok _ (some _) _ fs' tr => RunOut.stopped fs' tr
    | WriteOut.panic => RunOut.stopped fs []

/-- The file system a run ended with. -/
def runFs : RunOut → FS
  | RunOut.ok _ fs _ => fs
  | RunOut.stopped fs _ => fs

/-- The operations a run performed. -/
def runTr : RunOut → List Op
  | RunOut.ok _ _ tr => tr
  | RunOut.stopped _ tr => tr

/-- The content of the file at `s`, empty when absent. -/
def contentAt (fs : FS) (s : String) : List Nat :=
  match fsFind fs s with
  | some d => d.content
  | none => []

/-- The sink state returned by `write`, when it did not panic. -/
def afterF : WriteOut → Option RotateFile
  | WriteOut.ok _ _ f _ _ => some f
  | WriteOut.panic => none

/-- The operation trace of a `write` outcome. -/
def afterTr : WriteOut → List Op
  | WriteOut.ok _ _ _ _ tr => tr
  | WriteOut.panic => []

/-- Read a decimal digit-character list back as a number (used to show
that `Nat.repr` is injective, so that distinct backup indices give
distinct backup file names). -/
def decDigits (ds : List Char) : Nat :=
  ds.foldl (fun a c => a * 10 + (c.toNat - 48)) 0

/-- An environment whose first `File.Write` fails without writing
anything; everything else succeeds. -/
def envErr : Env :=
  { fw0 := fun _ => (0, some "disk full"), closeE := none, openE := none,
    fw1 := fun n => (n, none) }

/-- An environment whose first `File.Write` reports one byte written
and an error; everything else succeeds. -/
def envPartial : Env :=
  { fw0 := fun _ => (1, some "short write"), closeE := none, openE := none,
    fw1 := fun n => (n, none) }

/-- Total length of a list of writes. -/
def sumLen (bs : List (List Nat)) : Nat :=
  (bs.map List.length).sum

/-! ### Injectivity of decimal numerals, hence of backup file names -/

theorem toDigitsCore_acc (b : Nat) :
    ∀ (fl n : Nat) (ds : List Char),
      Nat.toDigitsCore b fl n ds = Nat.toDigitsCore b fl n [] ++ ds := by
  intro fl
  induction fl with
  | zero => intro n ds; simp [Nat.toDigitsCore]
  | succ g ih =>
    intro n ds
    simp only [Nat.toDigitsCore]
    by_cases h : n / b = 0
    · simp [h]
    · simp only [if_neg h]
      rw [ih (n / b) (Nat.digitChar (n % b) :: ds), ih (n / b) [Nat.digitChar (n % b)]]
      simp

theorem digitChar_toNat (m : Nat) (h : m < 10) : (Nat.digitChar m).toNat = m + 48 := by
  interval_cases m <;> rfl

theorem decDigits_append (xs : List Char) (c : Char) :
    decDigits (xs ++ [c]) = decDigits xs * 10 + (c.toNat - 48) := by
  simp [decDigits, List.foldl_append]

theorem decDigits_toDigitsCore :
    ∀ (n fl : Nat), n < fl → decDigits (Nat.toDigitsCore 10 fl n []) = n := by
  intro n
  induction n using Nat.strong_induction_on with
  | _ n ih =>
    intro fl hfl
    cases fl with
    | zero => omega
    | succ g =>
      simp only [Nat.toDigitsCore]
      by_cases h : n / 10 = 0
      · rw [if_pos h]
        simp [decDigits, digitChar_toNat (n % 10) (by omega)]
        omega
      · rw [if_neg h, toDigitsCore_acc, decDigits_append]
        have hlt : n / 10 < n := by omega
        have hfl2 : n / 10 < g := by omega
        rw [ih (n / 10) hlt g hfl2, digitChar_toNat (n % 10) (by omega)]
        omega

theorem repr_data_inj {m n : Nat} (h : (Nat.repr m).data = (Nat.repr n).data) : m = n := by
  have hm := decDigits_toDigitsCore m (m + 1) (Nat.lt_succ_self m)
  have hn := decDigits_toDigitsCore n (n + 1) (Nat.lt_succ_self n)
  have hl : Nat.toDigitsCore 10 (m + 1) m [] = Nat.toDigitsCore 10 (n + 1) n [] := h
  rw [← hm, ← hn, hl]

theorem bak_inj {name : String} {i j : Nat} (h : bak name i = bak name j) : i = j := by
  apply repr_data_inj (m := i) (n := j)
  have hd := congrArg String.data h
  simp only [bak, String.data_append] at hd
  exact List.append_cancel_left hd

theorem name_ne_bak (name : String) (i : Nat) : name ≠ bak name i := by
  intro h
  have hd := congrArg String.data h
  simp only [bak, String.data_append] at hd
  have hlen := congrArg List.length hd
  have h1 : (".".data).length = 1 := rfl
  simp [List.length_append, h1] at hlen

/-! ### Pointwise behaviour of the file-system operations -/

theorem fsFind_remove_ne {fs : FS} {a s : String} (h : s ≠ a) :
    fsFind (fsRemove fs a) s = fsFind fs s := by
  induction fs with
  | nil => rfl
  | cons p t ih =>
    obtain ⟨k, d⟩ := p
    simp only [fsRemove]
    by_cases hk : k = a
    · rw [if_pos hk, ih]
      have hks : k ≠ s := fun hks => h (hks.symm.trans hk)
      simp [fsFind, hks]
    · rw [if_neg hk]
      simp only [fsFind]
      by_cases hks : k = s
      · rw [if_pos hks, if_pos hks]
      · rw [if_neg hks, if_neg hks]
        exact ih

theorem fsFind_remove_self {fs : FS} {a : String} : fsFind (fsRemove fs a) a = none := by
  induction fs with
  | nil => rfl
  | cons p t ih =>
    obtain ⟨k, d⟩ := p
    simp only [fsRemove]
    by_cases hk : k = a
    · rw [if_pos hk]
      exact ih
    · rw [if_neg hk]
      simp only [fsFind]
      rw [if_neg hk]
      exact ih

theorem fsFind_set_self {fs : FS} {a : String} {d : FData} :
    fsFind (fsSet fs a d) a = some d := by
  simp [fsSet, fsFind]

theorem fsFind_set_ne {fs : FS} {a s : String} (h : s ≠ a) (d : FData) :
    fsFind (fsSet fs a d) s = fsFind fs s := by
  simp only [fsSet, fsFind]
  rw [if_neg (fun has : a = s => h has.symm)]
  exact fsFind_remove_ne h

theorem fsFind_rename_other {fs : FS} {src dst s : String} (h1 : s ≠ src) (h2 : s ≠ dst) :
    fsFind (fsRename fs src dst) s = fsFind fs s := by
  unfold fsRename
  cases hf : fsFind fs src with
  | none => rfl
  | some d => rw [fsFind_set_ne h2, fsFind_remove_ne h1]

theorem fsFind_append_other {fs : FS} {a s : String} (h : s ≠ a) (bs : List Nat) (now : Nat) :
    fsFind (fsAppend fs a bs now) s = fsFind fs s := by
  unfold fsAppend
  cases hf : fsFind fs a with
  | none => rw [fsFind_set_ne h]
  | some d => rw [fsFind_set_ne h]

theorem fsFind_append_self {fs : FS} {a : String} {d : FData} (h : fsFind fs a = some d)
    (bs : List Nat) (now : Nat) :
    fsFind (fsAppend fs a bs now) a = some ⟨d.content ++ bs, now⟩ := by
  unfold fsAppend
  rw [h]
  exact fsFind_set_self

theorem open_of_exists {fs : FS} {a : String} {d : FData} (h : fsFind fs a = some d)
    (now : Nat) : OpenWronlyCreateAppend fs a now = fs := by
  unfold OpenWronlyCreateAppend
  rw [h]

/-! ### The backup-shifting loop and the rotation block -/

theorem shiftLoop_find_other (name : String) :
    ∀ (m : Nat) (fs : FS) (s : String),
      (∀ kk : Nat, 1 ≤ kk → kk ≤ m + 1 → s ≠ bak name kk) →
      fsFind (shiftLoop name m fs).1 s = fsFind fs s := by
  intro m
  induction m with
  | zero => intro fs s _; rfl
  | succ j ih =>
    intro fs s hs
    have hsfn : s ≠ bak name (j + 1) := hs (j + 1) (by omega) (by omega)
    have hdfn : s ≠ bak name (j + 2) := hs (j + 2) (by omega) (by omega)
    have hrec : ∀ kk : Nat, 1 ≤ kk → kk ≤ j + 1 → s ≠ bak name kk :=
      fun kk hk1 hk2 => hs kk hk1 (by omega)
    simp only [shiftLoop]
    by_cases h1 : isFileExist fs (bak name (j + 1)) = true
    · by_cases h2 : isFileExist fs (bak name (j + 2)) = true
      · rw [if_pos h1, if_pos h2]
        simp only
        rw [ih _ _ hrec, fsFind_rename_other hsfn hdfn, fsFind_remove_ne hdfn]
      · rw [if_pos h1, if_neg h2]
        simp only
        rw [ih _ _ hrec, fsFind_rename_other hsfn hdfn]
    · rw [if_neg h1]
      simp only
      rw [ih _ _ hrec]

theorem shiftLoop_tr_moves (name : String) :
    ∀ (m : Nat) (fs : FS), (shiftLoop name m fs).2.all Op.isMove = true := by
  intro m
  induction m with
  | zero => intro fs; rfl
  | succ j ih =>
    intro fs
    simp only [shiftLoop]
    by_cases h1 : isFileExist fs (bak name (j + 1)) = true
    · by_cases h2 : isFileExist fs (bak name (j + 2)) = true
      · rw [if_pos h1, if_pos h2]
        simp [List.all_append, ih, Op.isMove]
      · rw [if_pos h1, if_neg h2]
        simp [List.all_append, ih, Op.isMove]
    · rw [if_neg h1]
      simp [ih]

theorem rotate_tr_moves (name : String) (backup : Int) (fs : FS) :
    (rotate name backup fs).2.all Op.isMove = true := by
  simp only [rotate]
  by_cases hb : 0 < backup
  · rw [if_pos hb]
    by_cases h2 : isFileExist (shiftLoop name (backup - 1).toNat fs).1 (bak name 1) = true
    · rw [if_pos h2]
      simp [List.all_append, shiftLoop_tr_moves, Op.isMove]
    · rw [if_neg h2]
      simp [List.all_append, shiftLoop_tr_moves, Op.isMove]
  · rw [if_neg hb]
    rfl

theorem rotate_zero (name : String) (fs : FS) : rotate name 0 fs = (fs, []) := by
  simp [rotate]

theorem countP_open_of_moves {tr : List Op} (h : tr.all Op.isMove = true) :
    tr.countP (fun o => Op.isOpenOp o) = 0 := by
  induction tr with
  | nil => rfl
  | cons o t ih =>
    simp only [List.all_cons, Bool.and_eq_true] at h
    obtain ⟨h1, h2⟩ := h
    rw [List.countP_cons]
    have ho : Op.isOpenOp o = false := by
      cases o <;> simp_all [Op.isMove, Op.isOpenOp]
    simp [ho, ih h2]

/-! ### The three branches of `write` -/

theorem write_fit (f : RotateFile) (fs : FS) (b : List Nat) (now : Nat)
    (h : (b.length : Int) ≤ f.CapLimit - f.CapUsing) :
    write f fs b now happyEnv =
      WriteOut.ok b.length none
        { f with CapUsing := f.CapUsing + (b.length : Int), UpdateAt := now }
        (fsAppend fs f.Name b now) [Op.fileWrite f.Name b] := by
  simp [write, happyEnv, if_pos h]

theorem write_over_happy (f : RotateFile) (fs : FS) (b : List Nat) (now : Nat)
    (h0 : 0 ≤ f.CapLimit - f.CapUsing) (h1 : f.CapLimit - f.CapUsing < (b.length : Int)) :
    write f fs b now happyEnv =
      WriteOut.ok b.length none
        { f with
            CapUsing := ((b.length - (f.CapLimit - f.CapUsing).toNat : Nat) : Int),
            UpdateAt := now }
        (fsAppend
          (OpenWronlyCreateAppend
            (rotate f.Name f.Backup
              (fsAppend fs f.Name (List.take (f.CapLimit - f.CapUsing).toNat b) now)).1
            f.Name now)
          f.Name (List.drop (f.CapLimit - f.CapUsing).toNat b) now)
        ([Op.fileWrite f.Name (List.take (f.CapLimit - f.CapUsing).toNat b),
          Op.fileClose f.Name] ++
         (rotate f.Name f.Backup
            (fsAppend fs f.Name (List.take (f.CapLimit - f.CapUsing).toNat b) now)).2 ++
         [Op.fileOpen f.Name,
          Op.fileWrite f.Name (List.drop (f.CapLimit - f.CapUsing).toNat b)]) := by
  have hn1 : ¬ ((b.length : Int) ≤ f.CapLimit - f.CapUsing) := not_le.mpr h1
  have hn2 : ¬ (f.CapLimit - f.CapUsing < 0) := not_lt.mpr h0
  have hk : (f.CapLimit - f.CapUsing).toNat ≤ b.length := by omega
  simp only [write, if_neg hn1, if_neg hn2, happyEnv]
  simp [min_self, List.take_take, List.length_drop, Nat.add_sub_cancel' hk, List.take_length,
    List.take_of_length_le]

theorem write_panic_overfull (f : RotateFile) (fs : FS) (b : List Nat) (now : Nat) (env : Env)
    (h : f.CapLimit - f.CapUsing < 0) :
    write f fs b now env = WriteOut.panic := by
  have hn1 : ¬ ((b.length : Int) ≤ f.CapLimit - f.CapUsing) := by
    intro hc
    omega
  simp only [write]
  rw [if_neg hn1, if_pos h]

theorem Write_ok_of_write {f : RotateFile} {fs : FS} {b : List Nat} {now : Nat} {env : Env}
    {n : Nat} {f' : RotateFile} {fs' : FS} {tr : List Op}
    (h : write f fs b now env = WriteOut.ok n none f' fs' tr) :
    Write f fs b now env = PublicOut.ok n f' fs' tr := by
  simp only [Write]
  rw [h]

theorem runWrites_cons_ok {f : RotateFile} {fs : FS} {b : List Nat} {now : Nat}
    {n : Nat} {f1 : RotateFile} {fs1 : FS} {tr1 : List Op} (rest : List (List Nat))
    (h : write f fs b now happyEnv = WriteOut.ok n none f1 fs1 tr1) :
    runWrites f fs (b :: rest) now =
      match runWrites f1 fs1 rest now with
      | RunOut.ok f2 fs2 tr2 => RunOut.ok f2 fs2 (tr1 ++ tr2)
      | RunOut.stopped fs2 tr2 => RunOut.stopped fs2 (tr1 ++ tr2) := by
  simp only [runWrites]
  rw [h]

theorem runWrites_cons_panic {f : RotateFile} {fs : FS} {b : List Nat} {now : Nat}
    (rest : List (List Nat))
    (h : write f fs b now happyEnv = WriteOut.panic) :
    runWrites f fs (b :: rest) now = RunOut.stopped fs [] := by
  simp only [runWrites]
  rw [h]

/-! ### Claims -/

/-- C10: in every sink state whose `CapUsing` exceeds `CapLimit` (reachable
for example after constructing on an oversized pre-existing file, or after
a rotating write whose tail exceeds the capacity, or with `CapLimit = 0`
after one rotation), the next `write` call — with any input, including the
empty one, and any environment — evaluates `b[:capSpace]` with a negative
bound and panics: nothing is written, rotated or returned. -/
theorem C10_overfull_state_write_panics (f : RotateFile) (fs : FS) (b : List Nat)
    (now : Nat) (env : Env) (h : f.CapLimit < f.CapUsing) :
    write f fs b now env = WriteOut.panic :=
  write_panic_overfull f fs b now env (by omega)

theorem C10_overfull_state_write_panics_witness :
    (2 : Int) < 5 ∧
      write ⟨1, 2, 5, "a", 0⟩ [("a", ⟨[1, 1], 0⟩)] [] 3 happyEnv = WriteOut.panic :=
  ⟨by norm_num,
   C10_overfull_state_write_panics ⟨1, 2, 5, "a", 0⟩ [("a", ⟨[1, 1], 0⟩)] [] 3 happyEnv
     (by norm_num)⟩

/-- C1 (code bug): the source comment says "If maxBytes is zero, rollover
never occurs", and the spec says `capacityLimit = 0` means never rotate;
but with `CapLimit = 0` the very first non-empty write takes the overflow
branch (capSpace `0 < len b`), closes, renames the active file to `.1`
and reopens — a full rotation — and the following non-empty write then
panics on `b[:capSpace]` with `capSpace = -1`. -/
theorem C1_zero_capacity_write_rotates :
    write ⟨1, 0, 0, "a", 0⟩ [("a", ⟨[], 0⟩)] [97] 1 happyEnv =
      WriteOut.ok 1 none ⟨1, 0, 1, "a", 1⟩ [("a", ⟨[97], 1⟩), ("a.1", ⟨[], 1⟩)]
        [Op.fileWrite "a" [], Op.fileClose "a", Op.fsRename "a" "a.1",
         Op.fileOpen "a", Op.fileWrite "a" [97]] ∧
    write ⟨1, 0, 1, "a", 1⟩ [("a", ⟨[97], 1⟩), ("a.1", ⟨[], 1⟩)] [98] 2 happyEnv =
      WriteOut.panic := by
  decide

/-- C2 counterexample: with `CapLimit = 2` a single 10-byte write leaves
`CapUsing = 8`, which is not `≤ CapLimit`, and the trace holds exactly one
reopen, i.e. one rotation — not one rotation per capacity boundary. -/
theorem C2_single_oversized_write_counterexample :
    afterF (write ⟨1, 2, 0, "a", 0⟩ [("a", ⟨[], 0⟩)] [1, 1, 1, 1, 1, 1, 1, 1, 1, 1] 1 happyEnv)
      = some ⟨1, 2, 8, "a", 1⟩ ∧
    ¬ ((8 : Int) ≤ 2) ∧
    (afterTr (write ⟨1, 2, 0, "a", 0⟩ [("a", ⟨[], 0⟩)] [1, 1, 1, 1, 1, 1, 1, 1, 1, 1] 1
        happyEnv)).countP (fun o => Op.isOpenOp o) = 1 := by
  decide

/-- C2 amended: a single successful write whose length exceeds the
remaining capacity plus `CapLimit` performs exactly ONE rotation (one
reopen in the trace); the whole tail goes to the fresh file, so
afterwards `CapUsing = len b - remaining`, which EXCEEDS `CapLimit`. -/
theorem C2_oversized_write_single_rotation (f : RotateFile) (fs : FS) (b : List Nat)
    (now : Nat) (hL : 0 < f.CapLimit) (h0 : 0 ≤ f.CapLimit - f.CapUsing)
    (h1 : f.CapLimit - f.CapUsing + f.CapLimit < (b.length : Int)) :
    ∃ f' fs' tr, write f fs b now happyEnv = WriteOut.ok b.length none f' fs' tr ∧
      tr.countP (fun o => Op.isOpenOp o) = 1 ∧
      f'.CapUsing = ((b.length - (f.CapLimit - f.CapUsing).toNat : Nat) : Int) ∧
      f.CapLimit < f'.CapUsing := by
  have h2 : f.CapLimit - f.CapUsing < (b.length : Int) := by omega
  refine ⟨_, _, _, write_over_happy f fs b now h0 h2, ?_, rfl, ?_⟩
  · rw [List.countP_append, List.countP_append]
    rw [countP_open_of_moves (rotate_tr_moves _ _ _)]
    simp [List.countP_cons, Op.isOpenOp]
  · show f.CapLimit < ((b.length - (f.CapLimit - f.CapUsing).toNat : Nat) : Int)
    omega

theorem C2_oversized_write_single_rotation_witness :
    (0 : Int) < 2 ∧ (0 : Int) ≤ 2 - 0 ∧ (2 - 0 : Int) + 2 < 10 ∧
    ∃ f' fs' tr,
      write ⟨1, 2, 0, "a", 0⟩ [("a", ⟨[], 0⟩)] [1, 1, 1, 1, 1, 1, 1, 1, 1, 1] 1 happyEnv =
        WriteOut.ok 10 none f' fs' tr ∧
      tr.countP (fun o => Op.isOpenOp o) = 1 ∧
      f'.CapUsing = ((10 - ((2 : Int) - 0).toNat : Nat) : Int) ∧
      (2 : Int) < f'.CapUsing :=
  ⟨by norm_num, by norm_num, by norm_num,
   C2_oversized_write_single_rotation ⟨1, 2, 0, "a", 0⟩ [("a", ⟨[], 0⟩)]
     [1, 1, 1, 1, 1, 1, 1, 1, 1, 1] 1 (by norm_num) (by norm_num) (by norm_num)⟩

/-- C3 counterexample: when the underlying file write fails, the public
`Write` does not return the error — `doa.Try2` panics, aborting the
process; no outcome of `Write` ever carries an error value. -/
theorem C3_write_error_panics_counterexample :
    Write ⟨1, 10, 0, "a", 0⟩ [("a", ⟨[], 0⟩)] [1, 2, 3] 1 envErr =
      PublicOut.panicked [("a", ⟨[], 1⟩)] [Op.fileWrite "a" []] := by
  decide

/-- C3 amended: on success the public `Write` returns a byte count equal
to the input length (under the all-success environment, from any state
with `CapUsing ≤ CapLimit`); and whenever the private `write` reports any
I/O failure, `Write` panics instead of returning it. -/
theorem C3_Write_returns_length_or_panics :
    (∀ (f : RotateFile) (fs : FS) (b : List Nat) (now : Nat),
        f.CapUsing ≤ f.CapLimit →
        ∃ f' fs' tr, Write f fs b now happyEnv = PublicOut.ok b.length f' fs' tr) ∧
    (∀ (f : RotateFile) (fs : FS) (b : List Nat) (now : Nat) (env : Env) (n : Nat) (e : Err)
        (f' : RotateFile) (fs' : FS) (tr : List Op),
        write f fs b now env = WriteOut.ok n (some e) f' fs' tr →
        Write f fs b now env = PublicOut.panicked fs' tr) := by
  constructor
  · intro f fs b now h
    by_cases hfit : (b.length : Int) ≤ f.CapLimit - f.CapUsing
    · exact ⟨_, _, _, Write_ok_of_write (write_fit f fs b now hfit)⟩
    · have h0 : 0 ≤ f.CapLimit - f.CapUsing := by omega
      have h1 : f.CapLimit - f.CapUsing < (b.length : Int) := by omega
      exact ⟨_, _, _, Write_ok_of_write (write_over_happy f fs b now h0 h1)⟩
  · intro f fs b now env n e f' fs' tr hw
    simp only [Write]
    rw [hw]

theorem C3_Write_returns_length_or_panics_witness :
    (∃ f' fs' tr, Write ⟨1, 10, 0, "a", 0⟩ [("a", ⟨[], 0⟩)] [7, 8] 1 happyEnv =
        PublicOut.ok 2 f' fs' tr) ∧
    Write ⟨1, 10, 0, "a", 0⟩ [("a", ⟨[], 0⟩)] [9] 1 envErr =
      PublicOut.panicked [("a", ⟨[], 1⟩)] [Op.fileWrite "a" []] :=
  ⟨C3_Write_returns_length_or_panics.1 ⟨1, 10, 0, "a", 0⟩ [("a", ⟨[], 0⟩)] [7, 8] 1
     (by norm_num),
   C3_Write_returns_length_or_panics.2 ⟨1, 10, 0, "a", 0⟩ [("a", ⟨[], 0⟩)] [9] 1 envErr
     0 "disk full" ⟨1, 10, 0, "a", 1⟩ [("a", ⟨[], 1⟩)] [Op.fileWrite "a" []] (by decide)⟩

/-- C7: `New` opens the path with create+append (existing content is kept,
never truncated — the file system is unchanged when the file exists), and
recovers `CapUsing` from the existing size and `UpdateAt` from the
existing modification time; if the post-open `Stat` fails, `New` returns
no sink (`nil`) together with the error. -/
theorem C7_New_stat_recovery (fs : FS) (name : String) (backup size_ : Int) (now : Nat)
    (d : FData) (hA : fsFind fs name = some d) :
    New fs name backup size_ now ⟨none, none⟩ =
      (some ⟨backup, size_, (d.content.length : Int), name, d.mtime⟩, none, fs) ∧
    (∀ e : Err, New fs name backup size_ now ⟨none, some e⟩ = (none, some e, fs)) := by
  constructor
  · simp only [New]
    rw [open_of_exists hA, hA]
  · intro e
    simp only [New]
    rw [open_of_exists hA]

theorem C7_New_stat_recovery_witness :
    fsFind [("p", (⟨[1, 2, 3], 5⟩ : FData))] "p" = some ⟨[1, 2, 3], 5⟩ ∧
    New [("p", ⟨[1, 2, 3], 5⟩)] "p" 2 10 9 ⟨none, none⟩ =
      (some ⟨2, 10, 3, "p", 5⟩, none, [("p", ⟨[1, 2, 3], 5⟩)]) ∧
    New [("p", ⟨[1, 2, 3], 5⟩)] "p" 2 10 9 ⟨none, some "stat fail"⟩ =
      (none, some "stat fail", [("p", ⟨[1, 2, 3], 5⟩)]) :=
  ⟨by decide,
   (C7_New_stat_recovery [("p", ⟨[1, 2, 3], 5⟩)] "p" 2 10 9 ⟨[1, 2, 3], 5⟩ (by decide)).1,
   (C7_New_stat_recovery [("p", ⟨[1, 2, 3], 5⟩)] "p" 2 10 9 ⟨[1, 2, 3], 5⟩ (by decide)).2
     "stat fail"⟩

/-- C8: in the overflow branch, when the partial write of the first
`remaining` bytes reports an error after `k` bytes, `CapUsing` is still
advanced by `k` and `UpdateAt` set, the error is returned, and the trace
holds only that single file write — no close, rename, reopen or tail
write happens; the partial accounting is not rolled back. -/
theorem C8_partial_write_accounting (f : RotateFile) (fs : FS) (b : List Nat) (now : Nat)
    (env : Env) (k : Nat) (e : Err)
    (h0 : 0 ≤ f.CapLimit - f.CapUsing) (h1 : f.CapLimit - f.CapUsing < (b.length : Int))
    (hw : env.fw0 (f.CapLimit - f.CapUsing).toNat = (k, some e))
    (hk : k ≤ (f.CapLimit - f.CapUsing).toNat) :
    write f fs b now env =
      WriteOut.ok k (some e)
        { f with CapUsing := f.CapUsing + (k : Int), UpdateAt := now }
        (fsAppend fs f.Name (List.take k b) now)
        [Op.fileWrite f.Name (List.take k b)] := by
  have hn1 : ¬ ((b.length : Int) ≤ f.CapLimit - f.CapUsing) := not_le.mpr h1
  have hn2 : ¬ (f.CapLimit - f.CapUsing < 0) := not_lt.mpr h0
  simp only [write]
  rw [if_neg hn1, if_neg hn2, hw]
  simp [min_eq_left hk, List.take_take]

theorem C8_partial_write_accounting_witness :
    envPartial.fw0 ((5 : Int) - 2).toNat = (1, some "short write") ∧
    write ⟨1, 5, 2, "a", 0⟩ [("a", ⟨[4, 4], 0⟩)] [9, 9, 9, 9, 9] 7 envPartial =
      WriteOut.ok 1 (some "short write") ⟨1, 5, 3, "a", 7⟩
        (fsAppend [("a", ⟨[4, 4], 0⟩)] "a" [9] 7) [Op.fileWrite "a" [9]] :=
  ⟨rfl,
   C8_partial_write_accounting ⟨1, 5, 2, "a", 0⟩ [("a", ⟨[4, 4], 0⟩)] [9, 9, 9, 9, 9] 7
     envPartial 1 "short write" (by norm_num) (by norm_num) rfl (by norm_num)⟩

theorem runWrites_within (bs : List (List Nat)) :
    ∀ (f : RotateFile) (fs : FS) (now : Nat),
      0 ≤ f.CapUsing → f.CapUsing + (sumLen bs : Int) ≤ f.CapLimit →
      ∃ f' fs' tr, runWrites f fs bs now = RunOut.ok f' fs' tr ∧
        f'.CapUsing = f.CapUsing + (sumLen bs : Int) ∧
        tr.all Op.isWriteOp = true := by
  induction bs with
  | nil =>
    intro f fs now h0 hsum
    exact ⟨f, fs, [], rfl, by simp [sumLen], rfl⟩
  | cons b rest ih =>
    intro f fs now h0 hsum
    have hsumcons : (sumLen (b :: rest) : Int) = (b.length : Int) + (sumLen rest : Int) := by
      simp [sumLen]
    have hr0 : (0 : Int) ≤ (sumLen rest : Int) := Int.natCast_nonneg _
    have hfit : (b.length : Int) ≤ f.CapLimit - f.CapUsing := by
      rw [hsumcons] at hsum
      omega
    rw [runWrites_cons_ok rest (write_fit f fs b now hfit)]
    obtain ⟨f2, fs2, tr2, hrun, hcap, hall⟩ :=
      ih { f with CapUsing := f.CapUsing + (b.length : Int), UpdateAt := now }
        (fsAppend fs f.Name b now) now (by simp; omega)
        (by simp; rw [hsumcons] at hsum; omega)
    rw [hrun]
    refine ⟨f2, fs2, _, rfl, ?_, ?_⟩
    · rw [hcap, hsumcons]
      simp
      ring
    · simp [hall, Op.isWriteOp]

/-- C4: with `CapLimit > 0` and an empty active file, any sequence of
writes whose total length stays within `CapLimit` ends successfully with
no rotation at all — every operation in the trace is a plain file write
(no close, remove, rename or reopen) — and `CapUsing` ends equal to the
total number of bytes written. -/
theorem C4_within_capacity_no_rotation (f : RotateFile) (fs : FS) (bs : List (List Nat))
    (now : Nat) (_hL : 0 < f.CapLimit) (hU : f.CapUsing = 0)
    (hsum : (sumLen bs : Int) ≤ f.CapLimit) :
    ∃ f' fs' tr, runWrites f fs bs now = RunOut.ok f' fs' tr ∧
      f'.CapUsing = (sumLen bs : Int) ∧
      tr.all Op.isWriteOp = true := by
  obtain ⟨f', fs', tr, h1, h2, h3⟩ := runWrites_within bs f fs now (by omega) (by omega)
  exact ⟨f', fs', tr, h1, by rw [h2, hU]; ring, h3⟩

theorem C4_within_capacity_no_rotation_witness :
    (0 : Int) < 10 ∧ (sumLen [[1, 2], [3]] : Int) ≤ 10 ∧
    ∃ f' fs' tr,
      runWrites ⟨2, 10, 0, "a", 0⟩ [("a", ⟨[], 0⟩)] [[1, 2], [3]] 1 = RunOut.ok f' fs' tr ∧
        f'.CapUsing = (sumLen [[1, 2], [3]] : Int) ∧
        tr.all Op.isWriteOp = true :=
  ⟨by norm_num, by decide,
   C4_within_capacity_no_rotation ⟨2, 10, 0, "a", 0⟩ [("a", ⟨[], 0⟩)] [[1, 2], [3]] 1
     (by norm_num) rfl (by decide)⟩

/-- C5: a rotation with `Backup > 0`, from a state where the active file
exists and no numbered backup above `Backup` exists, moves the just-closed
active file to `name.1`, leaves no file at `name` (a fresh one is opened
by the caller), and still leaves every numbered backup index above
`Backup` absent — at most `Backup` numbered backups ever exist. -/
theorem C5_rotation_backup_bound (name : String) (backup : Int) (fs : FS) (d : FData)
    (hB : 0 < backup)
    (hHigh : ∀ j : Nat, backup < (j : Int) → fsFind fs (bak name j) = none)
    (hAct : fsFind fs name = some d) :
    fsFind (rotate name backup fs).1 (bak name 1) = some d ∧
    fsFind (rotate name backup fs).1 name = none ∧
    (∀ j : Nat, backup < (j : Int) → fsFind (rotate name backup fs).1 (bak name j) = none) := by
  have hname_ne : ∀ kk : Nat, name ≠ bak name kk := fun kk => name_ne_bak name kk
  have hshift_name : fsFind (shiftLoop name (backup - 1).toNat fs).1 name = some d := by
    rw [shiftLoop_find_other name _ fs name (fun kk _ _ => hname_ne kk), hAct]
  have hshift_high : ∀ j : Nat, backup < (j : Int) →
      fsFind (shiftLoop name (backup - 1).toNat fs).1 (bak name j) = none := by
    intro j hj
    rw [shiftLoop_find_other name _ fs _ ?_]
    · exact hHigh j hj
    · intro kk hk1 hk2 heq
      have hjk := bak_inj heq
      omega
  simp only [rotate]
  rw [if_pos hB]
  simp only
  by_cases hex : isFileExist (shiftLoop name (backup - 1).toNat fs).1 (bak name 1) = true
  · rw [if_pos hex]
    simp only
    have hfind_name2 :
        fsFind (fsRemove (shiftLoop name (backup - 1).toNat fs).1 (bak name 1)) name =
          some d := by
      rw [fsFind_remove_ne (hname_ne 1), hshift_name]
    unfold fsRename
    rw [hfind_name2]
    refine ⟨fsFind_set_self, ?_, ?_⟩
    · rw [fsFind_set_ne (hname_ne 1), fsFind_remove_self]
    · intro j hj
      have hne1 : bak name j ≠ bak name 1 := fun heq => by
        have := bak_inj heq
        omega
      rw [fsFind_set_ne hne1, fsFind_remove_ne (fun h => hname_ne j h.symm),
        fsFind_remove_ne hne1]
      exact hshift_high j hj
  · rw [if_neg hex]
    simp only
    unfold fsRename
    rw [hshift_name]
    refine ⟨fsFind_set_self, ?_, ?_⟩
    · rw [fsFind_set_ne (hname_ne 1), fsFind_remove_self]
    · intro j hj
      have hne1 : bak name j ≠ bak name 1 := fun heq => by
        have := bak_inj heq
        omega
      rw [fsFind_set_ne hne1, fsFind_remove_ne (fun h => hname_ne j h.symm)]
      exact hshift_high j hj

theorem C5_rotation_backup_bound_witness :
    (0 : Int) < 2 ∧
    fsFind [("x", (⟨[7], 3⟩ : FData)), ("x.1", ⟨[5], 1⟩)] "x" = some ⟨[7], 3⟩ ∧
    fsFind (rotate "x" 2 [("x", ⟨[7], 3⟩), ("x.1", ⟨[5], 1⟩)]).1 (bak "x" 1) = some ⟨[7], 3⟩ ∧
    fsFind (rotate "x" 2 [("x", ⟨[7], 3⟩), ("x.1", ⟨[5], 1⟩)]).1 "x" = none ∧
    fsFind (rotate "x" 2 [("x", ⟨[7], 3⟩), ("x.1", ⟨[5], 1⟩)]).1 (bak "x" 5) = none := by
  have hx1 : "x.1" = bak "x" 1 := by decide
  have hHigh : ∀ j : Nat, (2 : Int) < (j : Int) →
      fsFind [("x", (⟨[7], 3⟩ : FData)), ("x.1", ⟨[5], 1⟩)] (bak "x" j) = none := by
    intro j hj
    have h1 : "x" ≠ bak "x" j := name_ne_bak "x" j
    have h2 : "x.1" ≠ bak "x" j := by
      rw [hx1]
      intro heq
      have := bak_inj heq
      omega
    simp [fsFind, h1, h2]
  obtain ⟨w1, w2, w3⟩ :=
    C5_rotation_backup_bound "x" 2 [("x", ⟨[7], 3⟩), ("x.1", ⟨[5], 1⟩)] ⟨[7], 3⟩
      (by norm_num) hHigh (by decide)
  exact ⟨by norm_num, by decide, w1, w2, w3 5 (by norm_num)⟩

theorem write_b0 (f : RotateFile) (fs : FS) (b : List Nat) (now : Nat) (d : FData)
    (hB : f.Backup = 0) (hA : fsFind fs f.Name = some d)
    (h0 : 0 ≤ f.CapLimit - f.CapUsing) :
    ∃ f' fs' tr, write f fs b now happyEnv = WriteOut.ok b.length none f' fs' tr ∧
      f'.Backup = 0 ∧ f'.Name = f.Name ∧
      fsFind fs' f.Name = some ⟨d.content ++ b, now⟩ ∧
      tr.all (fun o => !(Op.isMove o)) = true := by
  by_cases hfit : (b.length : Int) ≤ f.CapLimit - f.CapUsing
  · refine ⟨_, _, _, write_fit f fs b now hfit, hB, rfl, ?_, ?_⟩
    · exact fsFind_append_self hA b now
    · rfl
  · have h1 : f.CapLimit - f.CapUsing < (b.length : Int) := by omega
    refine ⟨_, _, _, write_over_happy f fs b now h0 h1, hB, rfl, ?_, ?_⟩
    · rw [hB, rotate_zero]
      simp only
      have hA1 : fsFind (fsAppend fs f.Name (List.take (f.CapLimit - f.CapUsing).toNat b) now)
          f.Name = some ⟨d.content ++ List.take (f.CapLimit - f.CapUsing).toNat b, now⟩ :=
        fsFind_append_self hA _ now
      rw [open_of_exists hA1, fsFind_append_self hA1]
      simp [List.take_append_drop]
    · rw [hB, rotate_zero]
      simp [Op.isMove]

/-- C6: with `Backup = 0`, no sequence of writes ever performs a rename or
a remove, and the active file's content only ever grows by appending —
whatever was there stays as a prefix — regardless of `CapLimit` (the
overflow branch still closes and reopens, but skips the whole rename
block, and the create+append reopen preserves content). -/
theorem C6_backup_zero_no_moves (bs : List (List Nat)) :
    ∀ (f : RotateFile) (fs : FS) (now : Nat) (d : FData),
      f.Backup = 0 → fsFind fs f.Name = some d →
      (runTr (runWrites f fs bs now)).all (fun o => !(Op.isMove o)) = true ∧
      (∃ t, contentAt (runFs (runWrites f fs bs now)) f.Name = d.content ++ t) := by
  induction bs with
  | nil =>
    intro f fs now d hB hA
    exact ⟨rfl, [], by simp [runWrites, runFs, contentAt, hA]⟩
  | cons b rest ih =>
    intro f fs now d hB hA
    by_cases h0 : 0 ≤ f.CapLimit - f.CapUsing
    · obtain ⟨f', fs', tr, hw, hB', hName, hfind, hmv⟩ := write_b0 f fs b now d hB hA h0
      rw [runWrites_cons_ok rest hw]
      obtain ⟨ih1, t, ih2⟩ := ih f' fs' now ⟨d.content ++ b, now⟩ hB' (by rw [hName]; exact hfind)
      rw [hName] at ih2
      cases hrun : runWrites f' fs' rest now with
      | ok f2 fs2 tr2 =>
        rw [hrun] at ih1 ih2
        simp only [runTr, runFs] at ih1 ih2 ⊢
        refine ⟨?_, b ++ t, ?_⟩
        · simp [List.all_append, hmv, ih1]
        · rw [ih2, List.append_assoc]
      | stopped fs2 tr2 =>
        rw [hrun] at ih1 ih2
        simp only [runTr, runFs] at ih1 ih2 ⊢
        refine ⟨?_, b ++ t, ?_⟩
        · simp [List.all_append, hmv, ih1]
        · rw [ih2, List.append_assoc]
    · have hp : write f fs b now happyEnv = WriteOut.panic :=
        write_panic_overfull f fs b now happyEnv (by omega)
      rw [runWrites_cons_panic rest hp]
      exact ⟨rfl, [], by simp [runFs, contentAt, hA]⟩

/-- C9: the concrete scenario. With `CapLimit = 10`, `Backup = 2` on an
initially absent `path`: `New` creates an empty file and a sink with
`CapUsing = 0`; writing "12345" (bytes 49..53) fits, leaving the file at
"12345" and `CapUsing = 5` with no rotation in the trace; writing
"67890AB" then writes "67890" to fill the file to "1234567890", closes,
renames `path` to `path.1`, reopens a fresh `path` and writes "AB" — the
final state has `path` = "AB" with `CapUsing = 2`, `path.1` =
"1234567890", and no `path.2`. -/
theorem C9_concrete_scenario :
    New ([] : FS) "path" 2 10 0 ⟨none, none⟩ =
      (some ⟨2, 10, 0, "path", 0⟩, none, [("path", ⟨[], 0⟩)]) ∧
    write ⟨2, 10, 0, "path", 0⟩ [("path", ⟨[], 0⟩)] [49, 50, 51, 52, 53] 1 happyEnv =
      WriteOut.ok 5 none ⟨2, 10, 5, "path", 1⟩ [("path", ⟨[49, 50, 51, 52, 53], 1⟩)]
        [Op.fileWrite "path" [49, 50, 51, 52, 53]] ∧
    write ⟨2, 10, 5, "path", 1⟩ [("path", ⟨[49, 50, 51, 52, 53], 1⟩)]
        [54, 55, 56, 57, 48, 65, 66] 2 happyEnv =
      WriteOut.ok 7 none ⟨2, 10, 2, "path", 2⟩
        [("path", ⟨[65, 66], 2⟩), ("path.1", ⟨[49, 50, 51, 52, 53, 54, 55, 56, 57, 48], 2⟩)]
        [Op.fileWrite "path" [54, 55, 56, 57, 48], Op.fileClose "path",
         Op.fsRename "path" "path.1", Op.fileOpen "path", Op.fileWrite "path" [65, 66]] ∧
    fsFind [("path", (⟨[65, 66], 2⟩ : FData)),
        ("path.1", ⟨[49, 50, 51, 52, 53, 54, 55, 56, 57, 48], 2⟩)] "path.2" = none := by
  decide

theorem C6_backup_zero_no_moves_witness :
    fsFind [("a", (⟨[3], 0⟩ : FData))] "a" = some ⟨[3], 0⟩ ∧
    ((runTr (runWrites ⟨0, 2, 0, "a", 0⟩ [("a", ⟨[3], 0⟩)] [[1, 2], [4, 5, 6]] 1)).all
        (fun o => !(Op.isMove o)) = true ∧
      ∃ t, contentAt (runFs (runWrites ⟨0, 2, 0, "a", 0⟩ [("a", ⟨[3], 0⟩)] [[1, 2], [4, 5, 6]] 1))
          "a" = [3] ++ t) :=
  ⟨by decide,
   C6_backup_zero_no_moves [[1, 2], [4, 5, 6]] ⟨0, 2, 0, "a", 0⟩ [("a", ⟨[3], 0⟩)] 1
     ⟨[3], 0⟩ rfl (by decide)⟩

end rotatefile
